import Mathlib

/-!
Shallow embedding of the media packetizer of this repository:
`BaseMediaPacketizer` (RTP/RTCP packet construction), `normalizeVideoCodec`
and the codec dispatch at the top of `streamLivestreamVideo`.

Modelling conventions:
* Node `Buffer`s are byte lists (`List Nat`, each element < 256).
* Node's checked big-endian writers (`writeUInt32BE`, `writeUIntBE`) throw
  `ERR_OUT_OF_RANGE` when the value does not fit the field; they are
  modelled in `Except`, and a method that can throw returns an `Except`.
* JS numbers that hold integer milliseconds are exact in a double, so the
  wall-clock arithmetic of `makeRtcpSenderReport` is modelled over `ℚ`
  (`Math.floor` is `Int.floor`, `Math.round` is `round`, which agrees with
  JS round-half-up at every half).
* JS strings are lists of code points; `toUpperCase`/`toLowerCase` and the
  case-insensitive regex tests are modelled with ASCII case mapping.
* `libsodium`'s `crypto_secretbox_easy` and the `MediaUdp` nonce source and
  key are external collaborators, modelled as an explicit environment.
-/

/-- A JS string, as its list of code points. -/
def str (s : String) : List Nat := s.data.map Char.toNat

/-- `export const max_int16bit = 2 ** 16`. -/
def max_int16bit : Nat := 65536

/-- `export const max_int32bit = 2 ** 32`. -/
def max_int32bit : Nat := 4294967296

/-- `const ntpEpoch = new Date("Jan 01 1900 GMT").getTime()`, in
milliseconds relative to the Unix epoch. -/
def ntpEpoch : Int := -2208988800000

/-- The error value of Node's `ERR_OUT_OF_RANGE` `RangeError`. -/
def errOutOfRange : List Nat := str "ERR_OUT_OF_RANGE"

/-- Big-endian byte pair of a 16-bit value. -/
def be16 (v : Nat) : List Nat := [v / 256 % 256, v % 256]

/-- Big-endian byte quadruple of a 32-bit value. -/
def be32 (v : Nat) : List Nat :=
  [v / 16777216 % 256, v / 65536 % 256, v / 256 % 256, v % 256]

/-- `Buffer.writeUIntBE(value, off, 2)`: checked 16-bit big-endian write. -/
def writeUInt16BE (v : Nat) : Except (List Nat) (List Nat) :=
  if v ≤ 65535 then .ok (be16 v) else .error errOutOfRange

/-- `Buffer.writeUInt32BE` / `Buffer.writeUIntBE(value, off, 4)` on a
nonnegative integer value: checked 32-bit big-endian write. -/
def writeUInt32BE (v : Nat) : Except (List Nat) (List Nat) :=
  if v ≤ 4294967295 then .ok (be32 v) else .error errOutOfRange

/-- `Buffer.writeUInt32BE` on an integer JS number that may be negative or
too large: Node validates `0 ≤ value ≤ 0xFFFFFFFF` and throws otherwise. -/
def writeUInt32BEInt (v : Int) : Except (List Nat) (List Nat) :=
  if 0 ≤ v ∧ v ≤ 4294967295 then .ok (be32 v.toNat) else .error errOutOfRange

/-- The fields of `BaseMediaPacketizer`.  `_mediaUdp` is the external
environment `MediaEnv` below. -/
structure PState where
  payloadType : Nat
  mtu : Nat
  sequence : Nat
  timestamp : Nat
  totalBytes : Nat
  prevTotalPackets : Nat
  lastPacketTime : Nat
  extensionEnabled : Bool
deriving DecidableEq

/-- External collaborators of the packetizer: the `MediaUdp` nonce source
and session key, and `crypto_secretbox_easy`
(plaintext → nonce → key → ciphertext-plus-tag). -/
structure MediaEnv where
  secretbox : List Nat → List Nat → List Nat → List Nat
  nonce : List Nat
  secretkey : List Nat

/-- The `BaseMediaPacketizer` constructor.  In JS `_lastPacketTime` is left
undefined until `sendFrame` runs; it is modelled as 0 here, and every claim
that touches it supplies an explicit value reachable through `sendFrame`. -/
def mkPacketizer (payloadType : Nat) (extensionEnabled : Bool) : PState :=
  { payloadType := payloadType, mtu := 1200, sequence := 0, timestamp := 0,
    totalBytes := 0, prevTotalPackets := 0, lastPacketTime := 0,
    extensionEnabled := extensionEnabled }

/-- `sendFrame` (base class part): records the wall clock of the send. -/
def sendFrame (st : PState) (now : Nat) : PState :=
  { st with lastPacketTime := now }

/-- `getNewSequence()`: increment modulo 2^32, return truncated to 16 bits. -/
def getNewSequence (st : PState) : PState × Nat :=
  let st1 := { st with sequence := (st.sequence + 1) % max_int32bit }
  (st1, st1.sequence % max_int16bit)

/-- `incrementTimestamp(incrementBy)`. -/
def incrementTimestamp (st : PState) (incrementBy : Nat) : PState :=
  { st with timestamp := (st.timestamp + incrementBy) % max_int32bit }

/-- `partitionDataMTUSizedChunks(data)`: the while-loop over
`size = Math.min(len, this._mtu); out.push(data.slice(i, i + size))`,
with `this._mtu` fixed at 1200 by the constructor (the field has no
setter).  The method reads no counter and writes no field. -/
def partitionDataMTUSizedChunks : List Nat → List (List Nat)
  | [] => []
  | a :: rest =>
    (a :: rest).take (min (a :: rest).length 1200) ::
      partitionDataMTUSizedChunks ((a :: rest).drop (min (a :: rest).length 1200))
termination_by data => data.length
decreasing_by simp [List.length_drop]

/-- `makeRtpHeader(ssrc, isLastPacket)`: byte 0 is
`2 << 6 | extension << 4`, byte 1 is the payload type (`Buffer` element
assignment truncates modulo 256) with the marker bit or-ed in, then the
fresh sequence number, the timestamp and the ssrc, big-endian.  The
sequence counter is consumed before the checked writes run. -/
def makeRtpHeader (st : PState) (ssrc : Nat) (isLastPacket : Bool) :
    PState × Except (List Nat) (List Nat) :=
  let b0 := 2 <<< 6 ||| (if st.extensionEnabled then 1 else 0) <<< 4
  let b1 := st.payloadType % 256
  let b1 := if isLastPacket then b1 ||| 128 else b1
  let (st1, seqWire) := getNewSequence st
  (st1, do
    let seqBytes ← writeUInt16BE seqWire
    let tsBytes ← writeUInt32BE st1.timestamp
    let ssrcBytes ← writeUInt32BE ssrc
    pure ([b0, b1] ++ seqBytes ++ tsBytes ++ ssrcBytes))

/-- `const ntpTimestampMsw = Math.floor(ntpTimestamp)`. -/
def ntpTimestampMsw (t : ℚ) : ℤ := ⌊t⌋

/-- `const ntpTimestampLsw = Math.round((ntpTimestamp - ntpTimestampMsw) * max_int32bit)`. -/
def ntpTimestampLsw (t : ℚ) : ℤ := round ((t - (⌊t⌋ : ℚ)) * 4294967296)

/-- `makeRtcpSenderReport(ssrc)`: the 8-byte plaintext header, the 20-byte
sender info (NTP 32.32 split, timestamp, raw sequence, total bytes), its
secretbox encryption under a fresh nonce, and the first 4 nonce bytes.
Every buffer field is written through a checked Node writer, in source
order. -/
def makeRtcpSenderReport (env : MediaEnv) (st : PState) (ssrc : Nat) :
    Except (List Nat) (List Nat) := do
  let ssrcBytes ← writeUInt32BE ssrc
  let packetHeader := [0x80, 0xc8, 0x00, 0x06] ++ ssrcBytes
  let ntpTimestamp : ℚ := (st.lastPacketTime : ℚ) - (ntpEpoch : ℚ)
  let mswBytes ← writeUInt32BEInt (ntpTimestampMsw ntpTimestamp)
  let lswBytes ← writeUInt32BEInt (ntpTimestampLsw ntpTimestamp)
  let tsBytes ← writeUInt32BE st.timestamp
  let seqBytes ← writeUInt32BE st.sequence
  let tbBytes ← writeUInt32BE st.totalBytes
  let senderReport := mswBytes ++ lswBytes ++ tsBytes ++ seqBytes ++ tbBytes
  let nonceBuffer := env.nonce
  pure (packetHeader ++ env.secretbox senderReport nonceBuffer env.secretkey
    ++ nonceBuffer.take 4)

/-- The firing test of `onFrameSent`: wrap-compensated packet count against
the last-report snapshot, compared on 128-packet blocks (`Math.floor` on
nonnegative JS numbers is Nat division; the difference is an integer). -/
def reportCondition (st : PState) : Bool :=
  let packetCount : Nat :=
    if st.prevTotalPackets > st.sequence then st.sequence + max_int32bit
    else st.sequence
  decide (0 < ((packetCount / 128 : Nat) : Int)
    - ((st.prevTotalPackets / 128 : Nat) : Int))

/-- `onFrameSent(bytesSent, ssrc)`: accumulate `totalBytes`, and on a
128-packet block crossing build and send a sender report, then snapshot
`prevTotalPackets := sequence`.  The returned state holds the mutations
performed before any throw (in JS an exception escapes after
`_totalBytes` was already updated and before `_prevTotalPackets` is);
the `Option` is the sender report handed to `mediaUdp.sendPacket`. -/
def onFrameSent (env : MediaEnv) (st : PState) (bytesSent : Nat) (ssrc : Nat) :
    PState × Except (List Nat) (Option (List Nat)) :=
  let st1 := { st with totalBytes := (st.totalBytes + bytesSent) % max_int32bit }
  if reportCondition st1 then
    match makeRtcpSenderReport env st1 ssrc with
    | .error e => (st1, .error e)
    | .ok senderReport =>
      ({ st1 with prevTotalPackets := st1.sequence }, .ok (some senderReport))
  else (st1, .ok none)

/-- One element of the `extensions` array of `createHeaderExtension`. -/
structure RtpExt where
  id : Nat
  len : Nat
  val : Nat

/-- `const extensions = [{ id: 5, len: 2, val: 0 }]`. -/
def extensions : List RtpExt := [{ id := 5, len := 2, val := 0 }]

/-- `createHeaderExtension()`: the `0xBEDE` profile word with the extension
count, then per extension one 4-byte element: id and `len - 1` packed in
the first byte, the 16-bit value at offset 1, and the zero byte left by
`Buffer.alloc(4)`. -/
def createHeaderExtension : List Nat :=
  let profile := [0xBE, 0xDE] ++ be16 extensions.length
  let extensionsData := extensions.map fun ext =>
    [((ext.id &&& 15) <<< 4) ||| ((ext.len - 1) &&& 15)] ++ be16 ext.val ++ [0]
  profile ++ extensionsData.flatten

/-- ASCII lower-casing of one code point (the case folding JS applies to
the ASCII patterns of the case-insensitive regexes). -/
def lowerCode (n : Nat) : Nat := if 65 ≤ n ∧ n ≤ 90 then n + 32 else n

/-- ASCII upper-casing of one code point (`String.prototype.toUpperCase`
restricted to ASCII). -/
def upperCode (n : Nat) : Nat := if 97 ≤ n ∧ n ≤ 122 then n - 32 else n

/-- Lower-case a JS string, code point by code point. -/
def lowerStr (s : List Nat) : List Nat := s.map lowerCode

/-- `codec.toUpperCase()` on the ASCII fragment. -/
def upperStr (s : List Nat) : List Nat := s.map upperCode

/-- Whether `pat` occurs at the head of `s`. -/
def prefOf : List Nat → List Nat → Bool
  | [], _ => true
  | _ :: _, [] => false
  | p :: ps, c :: cs => p == c && prefOf ps cs

/-- Whether `pat` occurs contiguously anywhere in `s`. -/
def subOf (pat : List Nat) : List Nat → Bool
  | [] => pat.isEmpty
  | c :: cs => prefOf pat (c :: cs) || subOf pat cs

/-- `/H\.?264|AVC/i.test(codec)`. -/
def testH264 (s : List Nat) : Bool :=
  subOf (str "h264") (lowerStr s) || subOf (str "h.264") (lowerStr s)
    || subOf (str "avc") (lowerStr s)

/-- `/H\.?265|HEVC/i.test(codec)`. -/
def testH265 (s : List Nat) : Bool :=
  subOf (str "h265") (lowerStr s) || subOf (str "h.265") (lowerStr s)
    || subOf (str "hevc") (lowerStr s)

/-- `/VP(8|9)/i.test(codec)`. -/
def testVP (s : List Nat) : Bool :=
  subOf (str "vp8") (lowerStr s) || subOf (str "vp9") (lowerStr s)

/-- `/AV1/i.test(codec)`. -/
def testAV1 (s : List Nat) : Bool :=
  subOf (str "av1") (lowerStr s)

/-- `normalizeVideoCodec(codec)` from `src/utils.ts`: the mediacodec
literals pass through, the regex branches return their fixed names except
the VP branch, which returns `codec.toUpperCase()`, and everything else
throws `Unknown codec`. -/
def normalizeVideoCodec (codec : List Nat) : Except (List Nat) (List Nat) :=
  if codec = str "h264_mediacodec" ∨ codec = str "hevc_mediacodec" then
    .ok codec
  else if testH264 codec then .ok (str "H264")
  else if testH265 codec then .ok (str "H265")
  else if testVP codec then .ok (upperStr codec)
  else if testAV1 codec then .ok (str "AV1")
  else .error (str "Unknown codec: " ++ codec)

/-- The three `Transform` implementations the `switch` of
`streamLivestreamVideo` can select. -/
inductive VideoOutputKind
  | h264NalSplitter
  | h265NalSplitter
  | ivfTransformer
deriving DecidableEq

/-- The `switch (videoCodec)` of `streamLivestreamVideo`: every codec
outside the five listed cases throws `Codec not supported` before any
ffmpeg command or stream is created. -/
def selectVideoOutput (codec : List Nat) : Except (List Nat) VideoOutputKind :=
  if codec = str "h264_mediacodec" ∨ codec = str "H264" then
    .ok .h264NalSplitter
  else if codec = str "hevc_mediacodec" ∨ codec = str "H265" then
    .ok .h265NalSplitter
  else if codec = str "VP8" then .ok .ivfTransformer
  else .error (str "Codec not supported")

/-- The codec-validation part of `streamLivestreamVideo`:
`normalizeVideoCodec(streamOpts.videoCodec)` followed by the output
`switch`, both of which run before any media is produced or sent. -/
def streamLivestreamVideoSetup (videoCodec : List Nat) :
    Except (List Nat) VideoOutputKind :=
  (normalizeVideoCodec videoCodec).bind selectVideoOutput

/-- State of the counter after `n` calls to `getNewSequence` on a freshly
constructed packetizer. -/
def seqAfterCalls (payloadType : Nat) (ext : Bool) : Nat → PState
  | 0 => mkPacketizer payloadType ext
  | n + 1 => (getNewSequence (seqAfterCalls payloadType ext n)).1

/-- C3: after `n` calls to `getNewSequence` on a fresh packetizer the
internal counter equals `n mod 2^32` (so it starts at 0 and never
decreases except by 2^32 wraparound), and the next call — call number
`n + 1` — increments first and returns `((n + 1) mod 2^32) mod 65536`. -/
theorem getNewSequence_counter (payloadType : Nat) (ext : Bool) (n : Nat) :
    (seqAfterCalls payloadType ext n).sequence = n % 4294967296 ∧
    (getNewSequence (seqAfterCalls payloadType ext n)).2 =
      ((n + 1) % 4294967296) % 65536 := by
  have h : ∀ m, (seqAfterCalls payloadType ext m).sequence = m % 4294967296 := by
    intro m
    induction m with
    | zero => rfl
    | succ k ih =>
      simp only [seqAfterCalls, getNewSequence, max_int32bit, ih]
      omega
  refine ⟨h n, ?_⟩
  simp only [getNewSequence, max_int32bit, max_int16bit, h n]
  omega

/-- C7: `createHeaderExtension` returns exactly 8 bytes: the `0xBEDE`
magic, the big-endian extension count 1, one element byte carrying id 5 in
its top nibble and encoded length `2 - 1` in its low nibble, and three
zero bytes of playout-delay value. -/
theorem createHeaderExtension_layout :
    createHeaderExtension.length = 8 ∧
    createHeaderExtension.getD 0 0 = 0xBE ∧
    createHeaderExtension.getD 1 0 = 0xDE ∧
    createHeaderExtension.getD 2 0 * 256 + createHeaderExtension.getD 3 0 = 1 ∧
    createHeaderExtension.getD 4 0 >>> 4 = 5 ∧
    createHeaderExtension.getD 4 0 &&& 15 = 2 - 1 ∧
    createHeaderExtension.getD 5 0 = 0 ∧
    createHeaderExtension.getD 6 0 = 0 ∧
    createHeaderExtension.getD 7 0 = 0 := by decide

/-- C10: `makeRtpHeader` leaves every field except the sequence counter
unchanged, and `incrementTimestamp` leaves every field except the
timestamp unchanged. -/
theorem makeRtpHeader_frame (st : PState) (ssrc : Nat) (isLastPacket : Bool)
    (d : Nat) :
    ((makeRtpHeader st ssrc isLastPacket).1.timestamp = st.timestamp ∧
      (makeRtpHeader st ssrc isLastPacket).1.totalBytes = st.totalBytes ∧
      (makeRtpHeader st ssrc isLastPacket).1.prevTotalPackets = st.prevTotalPackets ∧
      (makeRtpHeader st ssrc isLastPacket).1.lastPacketTime = st.lastPacketTime ∧
      (makeRtpHeader st ssrc isLastPacket).1.payloadType = st.payloadType ∧
      (makeRtpHeader st ssrc isLastPacket).1.mtu = st.mtu ∧
      (makeRtpHeader st ssrc isLastPacket).1.extensionEnabled = st.extensionEnabled) ∧
    ((incrementTimestamp st d).sequence = st.sequence ∧
      (incrementTimestamp st d).totalBytes = st.totalBytes ∧
      (incrementTimestamp st d).prevTotalPackets = st.prevTotalPackets ∧
      (incrementTimestamp st d).lastPacketTime = st.lastPacketTime ∧
      (incrementTimestamp st d).payloadType = st.payloadType ∧
      (incrementTimestamp st d).mtu = st.mtu ∧
      (incrementTimestamp st d).extensionEnabled = st.extensionEnabled) := by
  constructor
  · simp [makeRtpHeader, getNewSequence]
  · simp [incrementTimestamp]

theorem partition_nil : partitionDataMTUSizedChunks [] = [] := by
  rw [partitionDataMTUSizedChunks]

theorem partition_cons_shape (b : Nat) (bs : List Nat) :
    partitionDataMTUSizedChunks (b :: bs) =
      (b :: bs).take (min (b :: bs).length 1200) ::
        partitionDataMTUSizedChunks ((b :: bs).drop (min (b :: bs).length 1200)) := by
  rw [partitionDataMTUSizedChunks]

theorem partition_flatten (data : List Nat) :
    (partitionDataMTUSizedChunks data).flatten = data := by
  induction data using partitionDataMTUSizedChunks.induct with
  | case1 => rw [partition_nil]; rfl
  | case2 a rest ih =>
    rw [partition_cons_shape]
    simp only [List.flatten_cons, ih, List.take_append_drop]

theorem partition_chunk_le (data : List Nat) :
    ((partitionDataMTUSizedChunks data).all fun c => decide (c.length ≤ 1200))
      = true := by
  induction data using partitionDataMTUSizedChunks.induct with
  | case1 => rw [partition_nil]; rfl
  | case2 a rest ih =>
    rw [partition_cons_shape]
    rw [List.all_cons, ih, Bool.and_true, decide_eq_true_eq, List.length_take]
    omega

theorem partition_dropLast (data : List Nat) :
    (((partitionDataMTUSizedChunks data).dropLast).all
      fun c => decide (c.length = 1200)) = true := by
  induction data using partitionDataMTUSizedChunks.induct with
  | case1 => rw [partition_nil]; rfl
  | case2 a rest ih =>
    rw [partition_cons_shape]
    rcases hd : (a :: rest).drop (min (a :: rest).length 1200) with _ | ⟨b, bs⟩
    · simp [partition_nil]
    · have hgt : 1200 < (a :: rest).length := by
        by_contra hle
        have hnil : (a :: rest).drop (min (a :: rest).length 1200) = [] := by
          apply List.drop_eq_nil_of_le
          omega
        rw [hd] at hnil
        exact absurd hnil (by simp)
      rw [hd] at ih
      rw [partition_cons_shape, List.dropLast_cons₂, List.all_cons,
        ← partition_cons_shape, ih, Bool.and_true, decide_eq_true_eq,
        List.length_take]
      omega

/-- C5: the chunks produced by `partitionDataMTUSizedChunks` concatenate to
exactly the input, every chunk is at most 1200 bytes, every chunk except
possibly the last is exactly 1200 bytes, and the empty input yields no
chunks.  The function reads only its argument (the MTU field being fixed
at 1200 by the constructor) and returns no state change. -/
theorem partitionDataMTUSizedChunks_spec (data : List Nat) :
    (partitionDataMTUSizedChunks data).flatten = data ∧
    ((partitionDataMTUSizedChunks data).all fun c => decide (c.length ≤ 1200))
      = true ∧
    (((partitionDataMTUSizedChunks data).dropLast).all
      fun c => decide (c.length = 1200)) = true ∧
    partitionDataMTUSizedChunks [] = [] :=
  ⟨partition_flatten data, partition_chunk_le data, partition_dropLast data,
    partition_nil⟩

/-- C6: the 32.32 fixed-point value encoded by `ntpTimestampMsw` (integer
part) and `ntpTimestampLsw` (fractional part scaled by 2^32 and rounded)
round-trips to the original wall-clock delta within one part in 2^32. -/
theorem ntpFixedPoint_roundtrip (t : ℚ) :
    |((ntpTimestampMsw t : ℚ) + (ntpTimestampLsw t : ℚ) / 4294967296) - t| ≤
      1 / 4294967296 := by
  have key : ((ntpTimestampMsw t : ℚ) + (ntpTimestampLsw t : ℚ) / 4294967296) - t
      = ((round ((t - (⌊t⌋ : ℚ)) * 4294967296) : ℚ)
          - (t - (⌊t⌋ : ℚ)) * 4294967296) / 4294967296 := by
    unfold ntpTimestampMsw ntpTimestampLsw
    ring
  rw [key, abs_div, abs_sub_comm]
  rw [show |(4294967296 : ℚ)| = 4294967296 by norm_num]
  calc |(t - (⌊t⌋ : ℚ)) * 4294967296
        - (round ((t - (⌊t⌋ : ℚ)) * 4294967296) : ℚ)| / 4294967296
      ≤ (1 / 2) / 4294967296 := by
        gcongr
        exact abs_sub_round _
    _ ≤ 1 / 4294967296 := by norm_num

/-- C4 counterexample: the claim quantifies over every packetizer state and
every ssrc, but with payload type 200 (a legal `unsigned byte` constructor
argument) and `isLastPacket = false` the high bit of byte 1 is already 1,
so the marker bit is not `iff isLastPacket`; and with ssrc `2^32` the
checked write throws instead of returning 12 bytes. -/
theorem makeRtpHeader_marker_cex :
    (((makeRtpHeader (mkPacketizer 200 false) 12345 false).2.toOption.getD
      []).getD 1 0) / 128 = 1 ∧
    (makeRtpHeader (mkPacketizer 101 false) 4294967296 true).2 =
      Except.error errOutOfRange := by
  constructor
  · rfl
  · rfl

theorem makeRtpHeader_ok (st : PState) (ssrc : Nat) (isLastPacket : Bool)
    (hts : st.timestamp ≤ 4294967295) (hssrc : ssrc ≤ 4294967295) :
    (makeRtpHeader st ssrc isLastPacket).2 =
      Except.ok ([2 <<< 6 ||| (if st.extensionEnabled then 1 else 0) <<< 4,
        if isLastPacket then st.payloadType % 256 ||| 128
        else st.payloadType % 256]
        ++ be16 ((st.sequence + 1) % max_int32bit % max_int16bit)
        ++ be32 st.timestamp ++ be32 ssrc) := by
  have hseq : (st.sequence + 1) % max_int32bit % max_int16bit ≤ 65535 := by
    simp only [max_int16bit]
    omega
  simp [makeRtpHeader, getNewSequence, writeUInt16BE, writeUInt32BE,
    hseq, hts, hssrc]
  rfl

theorem lor_128 : ∀ p : Nat, p < 128 → p ||| 128 = 128 + p := by decide

/-- C4 (amended): provided the payload type fits 7 bits (the RTP payload-
type field; larger constructor arguments leak into the marker bit), the
ssrc fits 32 bits, and the timestamp fits 32 bits (true in every reachable
state), `makeRtpHeader` succeeds with exactly 12 bytes: version bits `10`,
extension bit as configured, marker bit iff `isLastPacket`, payload type
in the low 7 bits of byte 1, then the freshly consumed sequence number
(16-bit big-endian), the timestamp and the ssrc (32-bit big-endian). -/
theorem makeRtpHeader_layout (st : PState) (ssrc : Nat) (isLastPacket : Bool)
    (hpt : st.payloadType < 128) (hts : st.timestamp < 4294967296)
    (hssrc : ssrc < 4294967296) :
    ((makeRtpHeader st ssrc isLastPacket).2.toOption.getD []).length = 12 ∧
    ∀ L, (makeRtpHeader st ssrc isLastPacket).2 = Except.ok L →
      (L.getD 0 0 / 64 = 2 ∧
       L.getD 0 0 / 16 % 2 = (if st.extensionEnabled then 1 else 0) ∧
       L.getD 1 0 / 128 = (if isLastPacket then 1 else 0) ∧
       L.getD 1 0 % 128 = st.payloadType ∧
       L.getD 2 0 * 256 + L.getD 3 0 = (st.sequence + 1) % 4294967296 % 65536 ∧
       L.getD 4 0 * 16777216 + L.getD 5 0 * 65536 + L.getD 6 0 * 256
         + L.getD 7 0 = st.timestamp ∧
       L.getD 8 0 * 16777216 + L.getD 9 0 * 65536 + L.getD 10 0 * 256
         + L.getD 11 0 = ssrc) := by
  have hok := makeRtpHeader_ok st ssrc isLastPacket (by omega) (by omega)
  constructor
  · rw [hok]
    simp [be16, be32, Except.toOption]
  · intro L hL
    rw [hok] at hL
    injection hL with h
    subst h
    simp only [be16, be32, List.cons_append, List.nil_append,
      List.getD_cons_zero, List.getD_cons_succ]
    have hp : st.payloadType % 256 = st.payloadType :=
      Nat.mod_eq_of_lt (by omega)
    refine ⟨?_, ?_, ?_, ?_, ?_, ?_, ?_⟩
    · rcases hext : st.extensionEnabled <;> simp [hext]
    · rcases hext : st.extensionEnabled <;> simp [hext]
    · cases isLastPacket
      · simp only [Bool.false_eq_true, if_false]
        omega
      · simp only [if_true]
        rw [hp, lor_128 st.payloadType hpt]
        omega
    · cases isLastPacket
      · simp only [Bool.false_eq_true, if_false]
        omega
      · simp only [if_true]
        rw [hp, lor_128 st.payloadType hpt]
        omega
    · simp only [max_int32bit, max_int16bit]
      omega
    · omega
    · omega

/-- C4 witness: the amended layout theorem applied to the end-to-end
scenario state (payload type 101, extensions disabled, ssrc 12345). -/
theorem makeRtpHeader_layout_witness :
    ((makeRtpHeader (mkPacketizer 101 false) 12345 true).2.toOption.getD
      []).length = 12 :=
  (makeRtpHeader_layout (mkPacketizer 101 false) 12345 true (by decide)
    (by decide) (by decide)).1

theorem lowerCode_upperCode (n : Nat) : lowerCode (upperCode n) = lowerCode n := by
  unfold lowerCode upperCode
  by_cases h : 97 ≤ n ∧ n ≤ 122
  · rw [if_pos h, if_pos (by omega : 65 ≤ n - 32 ∧ n - 32 ≤ 90),
      if_neg (by omega : ¬(65 ≤ n ∧ n ≤ 90))]
    omega
  · rw [if_neg h]

theorem upperCode_upperCode (n : Nat) : upperCode (upperCode n) = upperCode n := by
  unfold upperCode
  by_cases h : 97 ≤ n ∧ n ≤ 122
  · rw [if_pos h, if_neg (by omega : ¬(97 ≤ n - 32 ∧ n - 32 ≤ 122))]
  · rw [if_neg h, if_neg h]

theorem upperCode_not_lowercase (n : Nat) : ¬(97 ≤ upperCode n ∧ upperCode n ≤ 122) := by
  unfold upperCode
  split <;> omega

theorem lowerStr_upperStr (s : List Nat) : lowerStr (upperStr s) = lowerStr s := by
  unfold lowerStr upperStr
  induction s with
  | nil => rfl
  | cons a as ih => simp [ih, lowerCode_upperCode]

theorem upperStr_upperStr (s : List Nat) : upperStr (upperStr s) = upperStr s := by
  unfold upperStr
  induction s with
  | nil => rfl
  | cons a as ih => simp [ih, upperCode_upperCode]

theorem upperStr_ne_h264m (s : List Nat) : upperStr s ≠ str "h264_mediacodec" := by
  intro h
  have hmem : (104 : Nat) ∈ upperStr s := by
    rw [h]
    decide
  obtain ⟨n, _, hn⟩ := List.mem_map.mp hmem
  exact upperCode_not_lowercase n (by omega)

theorem upperStr_ne_hevcm (s : List Nat) : upperStr s ≠ str "hevc_mediacodec" := by
  intro h
  have hmem : (104 : Nat) ∈ upperStr s := by
    rw [h]
    decide
  obtain ⟨n, _, hn⟩ := List.mem_map.mp hmem
  exact upperCode_not_lowercase n (by omega)

theorem testH264_upperStr (s : List Nat) : testH264 (upperStr s) = testH264 s := by
  unfold testH264
  rw [lowerStr_upperStr]

theorem testH265_upperStr (s : List Nat) : testH265 (upperStr s) = testH265 s := by
  unfold testH265
  rw [lowerStr_upperStr]

theorem testVP_upperStr (s : List Nat) : testVP (upperStr s) = testVP s := by
  unfold testVP
  rw [lowerStr_upperStr]

/-- C9: `normalizeVideoCodec` is idempotent on its successful outputs:
whenever it returns `v` without throwing, feeding `v` back in succeeds and
returns `v` again (in particular each of the fixed return values maps to
itself, and so does every upper-cased string from the VP branch). -/
theorem normalizeVideoCodec_idem (s v : List Nat)
    (h : normalizeVideoCodec s = Except.ok v) :
    normalizeVideoCodec v = Except.ok v := by
  unfold normalizeVideoCodec at h
  by_cases h1 : s = str "h264_mediacodec" ∨ s = str "hevc_mediacodec"
  · rw [if_pos h1] at h
    injection h with h
    subst h
    unfold normalizeVideoCodec
    rw [if_pos h1]
  · rw [if_neg h1] at h
    by_cases h2 : testH264 s = true
    · rw [if_pos h2] at h
      injection h with h
      subst h
      rfl
    · rw [if_neg h2] at h
      by_cases h3 : testH265 s = true
      · rw [if_pos h3] at h
        injection h with h
        subst h
        rfl
      · rw [if_neg h3] at h
        by_cases h4 : testVP s = true
        · rw [if_pos h4] at h
          injection h with h
          subst h
          unfold normalizeVideoCodec
          rw [if_neg (not_or.mpr ⟨upperStr_ne_h264m s, upperStr_ne_hevcm s⟩)]
          rw [if_neg (by rw [testH264_upperStr]; exact h2)]
          rw [if_neg (by rw [testH265_upperStr]; exact h3)]
          rw [if_pos (by rw [testVP_upperStr]; exact h4)]
          rw [upperStr_upperStr]
        · rw [if_neg h4] at h
          by_cases h5 : testAV1 s = true
          · rw [if_pos h5] at h
            injection h with h
            subst h
            rfl
          · rw [if_neg h5] at h
            simp at h

/-- C9 witness: the idempotence theorem applied to the VP branch, whose
output is the upper-cased input. -/
theorem normalizeVideoCodec_idem_witness :
    normalizeVideoCodec (str "VP8") = Except.ok (str "VP8") :=
  normalizeVideoCodec_idem (str "vp8") (str "VP8") (by rfl)

/-- C8: a codec string matching none of the recognized patterns makes
`normalizeVideoCodec` throw `Unknown codec` (no stream state exists yet);
and whenever `normalizeVideoCodec` succeeds with a value other than the
five accepted by the `switch` of `streamLivestreamVideo`, the stream setup
throws `Codec not supported` before any media is produced or sent. -/
theorem unsupported_codec_rejected :
    (∀ s : List Nat, s ≠ str "h264_mediacodec" → s ≠ str "hevc_mediacodec" →
      testH264 s = false → testH265 s = false → testVP s = false →
      testAV1 s = false →
      normalizeVideoCodec s = Except.error (str "Unknown codec: " ++ s)) ∧
    (∀ s v : List Nat, normalizeVideoCodec s = Except.ok v →
      v ≠ str "H264" → v ≠ str "H265" → v ≠ str "VP8" →
      v ≠ str "h264_mediacodec" → v ≠ str "hevc_mediacodec" →
      streamLivestreamVideoSetup s = Except.error (str "Codec not supported")) := by
  constructor
  · intro s hm1 hm2 p1 p2 p3 p4
    unfold normalizeVideoCodec
    rw [if_neg (not_or.mpr ⟨hm1, hm2⟩), if_neg (by simp [p1]),
      if_neg (by simp [p2]), if_neg (by simp [p3]), if_neg (by simp [p4])]
  · intro s v h hv1 hv2 hv3 hv4 hv5
    unfold streamLivestreamVideoSetup
    rw [h]
    show selectVideoOutput v = Except.error (str "Codec not supported")
    unfold selectVideoOutput
    rw [if_neg (not_or.mpr ⟨hv4, hv1⟩), if_neg (not_or.mpr ⟨hv5, hv2⟩),
      if_neg hv3]

/-- C8 witness: `mjpeg` matches no pattern and is rejected by
`normalizeVideoCodec`; `AV1` normalizes fine but is rejected by the
`switch` of `streamLivestreamVideo`. -/
theorem unsupported_codec_rejected_witness :
    normalizeVideoCodec (str "mjpeg") =
      Except.error (str "Unknown codec: " ++ str "mjpeg") ∧
    streamLivestreamVideoSetup (str "AV1") =
      Except.error (str "Codec not supported") :=
  ⟨unsupported_codec_rejected.1 (str "mjpeg") (by decide) (by decide)
      (by decide) (by decide) (by decide) (by decide),
    unsupported_codec_rejected.2 (str "AV1") (str "AV1") (by rfl) (by decide)
      (by decide) (by decide) (by decide) (by decide)⟩

deriving instance DecidableEq for Except

set_option maxRecDepth 4000

/-- A concrete environment: a secretbox with `crypto_secretbox_easy`'s
length behaviour (ciphertext = plaintext plus 16-byte tag), a 24-byte
nonce and a 32-byte key. -/
def env0 : MediaEnv :=
  { secretbox := fun pt _ _ => pt ++ List.replicate 16 0,
    nonce := List.replicate 24 0,
    secretkey := List.replicate 32 1 }

/-- A reachable state: payload type 101, 200 packets sent, one earlier
report snapshot, last send at wall clock 1760000000000 ms (October 2025,
a genuine `Date.now()` value recorded by `sendFrame`). -/
def stC1 : PState :=
  { payloadType := 101, mtu := 1200, sequence := 200, timestamp := 3000,
    totalBytes := 100000, prevTotalPackets := 128,
    lastPacketTime := 1760000000000, extensionEnabled := false }

/-- The wall-clock delta of a state is an integer of milliseconds:
`Date.now()` and `ntpEpoch` are integral, so `ntpTimestamp` equals the
integer `lastPacketTime + 2208988800000` exactly. -/
theorem ntpDelta_int (st : PState) :
    ((st.lastPacketTime : ℚ) - (ntpEpoch : ℚ))
      = (((st.lastPacketTime : ℤ) + 2208988800000 : ℤ) : ℚ) := by
  simp only [ntpEpoch]
  push_cast
  ring

theorem ntpMsw_at_state (st : PState) :
    ntpTimestampMsw ((st.lastPacketTime : ℚ) - (ntpEpoch : ℚ))
      = (st.lastPacketTime : ℤ) + 2208988800000 := by
  unfold ntpTimestampMsw
  rw [ntpDelta_int, Int.floor_intCast]

theorem ntpLsw_at_state (st : PState) :
    ntpTimestampLsw ((st.lastPacketTime : ℚ) - (ntpEpoch : ℚ)) = 0 := by
  unfold ntpTimestampLsw
  rw [ntpDelta_int, Int.floor_intCast, sub_self, zero_mul, round_zero]

/-- The millisecond NTP delta of every state exceeds `writeUInt32BE`'s
bound (it is at least 2208988800000 > 2^32 − 1), so the sender-report
builder throws on its first sender-info write, for every environment and
every state, whenever the ssrc write itself succeeded. -/
theorem makeRtcpSenderReport_always_error (env : MediaEnv) (st : PState)
    (ssrc : Nat) (hssrc : ssrc ≤ 4294967295) :
    makeRtcpSenderReport env st ssrc = Except.error errOutOfRange := by
  simp only [makeRtcpSenderReport, writeUInt32BE, writeUInt32BEInt]
  rw [if_pos hssrc, ntpMsw_at_state]
  rw [if_neg (by omega :
    ¬(0 ≤ (st.lastPacketTime : ℤ) + 2208988800000 ∧
      (st.lastPacketTime : ℤ) + 2208988800000 ≤ 4294967295))]
  rfl

/-- C1 (code bug): the NTP timestamp is the raw millisecond delta since
1900 (the seconds division is missing), so its integer part at the
recorded wall clock is 3968988800000 ≈ 3.97·10^12, above `writeUInt32BE`'s
bound 2^32 − 1; `makeRtcpSenderReport` therefore throws a `RangeError`
instead of returning the 48-byte report of the claim. -/
theorem makeRtcpSenderReport_range_bug :
    ntpTimestampMsw ((stC1.lastPacketTime : ℚ) - (ntpEpoch : ℚ))
      = 3968988800000 ∧
    (4294967295 : ℤ) < 3968988800000 ∧
    makeRtcpSenderReport env0 stC1 12345 = Except.error errOutOfRange := by
  refine ⟨?_, by norm_num, ?_⟩
  · rw [ntpMsw_at_state stC1]
    norm_num [stC1]
  · exact makeRtcpSenderReport_always_error env0 stC1 12345 (by norm_num)

/-- `onFrameSent` in closed form: the byte counter always updates; when
the 128-block condition fires the call throws the report builder's range
error (and the snapshot is not updated), otherwise it returns quietly. -/
theorem onFrameSent_char (env : MediaEnv) (st : PState) (bytesSent : Nat)
    (ssrc : Nat) (hssrc : ssrc ≤ 4294967295) :
    onFrameSent env st bytesSent ssrc =
      (if reportCondition
          { st with totalBytes := (st.totalBytes + bytesSent) % max_int32bit }
        then ({ st with totalBytes := (st.totalBytes + bytesSent) % max_int32bit },
          Except.error errOutOfRange)
        else ({ st with totalBytes := (st.totalBytes + bytesSent) % max_int32bit },
          Except.ok none)) := by
  unfold onFrameSent
  by_cases h : reportCondition
      { st with totalBytes := (st.totalBytes + bytesSent) % max_int32bit } = true
  · rw [if_pos h, if_pos h, makeRtcpSenderReport_always_error env _ ssrc hssrc]
  · rw [if_neg h, if_neg h]

/-- One simulated packet send: consume one sequence number (the data
packet going out), then run `onFrameSent`, counting entries into the
report branch and reports actually emitted. -/
def simStep (env : MediaEnv) (acc : PState × Nat × Nat) : PState × Nat × Nat :=
  let st1 := (getNewSequence acc.1).1
  let r := onFrameSent env st1 100 12345
  match r.2 with
  | .error _ => (r.1, acc.2.1 + 1, acc.2.2)
  | .ok none => (r.1, acc.2.1, acc.2.2)
  | .ok (some _) => (r.1, acc.2.1 + 1, acc.2.2 + 1)

/-- Iterated simulation of `n` packet sends through `onFrameSent`. -/
def simRun (env : MediaEnv) (st : PState) : Nat → PState × Nat × Nat
  | 0 => (st, 0, 0)
  | n + 1 => simStep env (simRun env st n)

/-- The ℚ-free twin of `simStep`, used to evaluate the simulation. -/
def simStepPure (acc : PState × Nat × Nat) : PState × Nat × Nat :=
  let st1 := (getNewSequence acc.1).1
  let st2 := { st1 with totalBytes := (st1.totalBytes + 100) % max_int32bit }
  if reportCondition st2 then (st2, acc.2.1 + 1, acc.2.2)
  else (st2, acc.2.1, acc.2.2)

/-- The ℚ-free twin of `simRun`. -/
def simRunPure (st : PState) : Nat → PState × Nat × Nat
  | 0 => (st, 0, 0)
  | n + 1 => simStepPure (simRunPure st n)

theorem simStep_eq_pure (env : MediaEnv) (acc : PState × Nat × Nat) :
    simStep env acc = simStepPure acc := by
  unfold simStep simStepPure
  dsimp only
  rw [onFrameSent_char env _ 100 12345 (by norm_num)]
  by_cases h : reportCondition
      { (getNewSequence acc.1).1 with
        totalBytes := ((getNewSequence acc.1).1.totalBytes + 100) % max_int32bit }
      = true
  · rw [if_pos h, if_pos h]
  · rw [if_neg h, if_neg h]

theorem simRun_eq_pure (env : MediaEnv) (st : PState) (n : Nat) :
    simRun env st n = simRunPure st n := by
  induction n with
  | zero => rfl
  | succ k ih => rw [simRun, simRunPure, ih, simStep_eq_pure]

/-- Start state of the wraparound scenario: the next sends carry raw
packet counts 2^32 − 10 … 2^32 + 20, and the last-report snapshot was
taken just below the 2^32 boundary. -/
def stWrapStart : PState :=
  { payloadType := 101, mtu := 1200, sequence := 4294967285,
    timestamp := 0, totalBytes := 0, prevTotalPackets := 4294967286,
    lastPacketTime := 1760000000000, extensionEnabled := false }

/-- The wraparound state itself: the counter has just wrapped to 0 (raw
count 2^32) while the snapshot still holds 2^32 − 10. -/
def stWrap : PState := { stWrapStart with sequence := 0, totalBytes := 100 }

/-- C2 (code bug): at the 2^32 boundary the claim's firing condition does
hold, but `onFrameSent` throws out of `makeRtcpSenderReport` (see C1)
instead of emitting a report, and the snapshot is never updated; over the
simulated run of raw counts 2^32 − 10 … 2^32 + 20 the report branch is
entered 21 times and zero reports are emitted — not the exactly-one
report of the claim. -/
theorem onFrameSent_wraparound_bug :
    reportCondition stWrap = true ∧
    (onFrameSent env0 stWrap 100 12345).2 = Except.error errOutOfRange ∧
    (simRun env0 stWrapStart 31).2.1 = 21 ∧
    (simRun env0 stWrapStart 31).2.2 = 0 := by
  refine ⟨by rfl, ?_, ?_, ?_⟩
  · rw [onFrameSent_char env0 stWrap 100 12345 (by norm_num)]
    rw [if_pos (by decide :
      reportCondition
        { stWrap with totalBytes := (stWrap.totalBytes + 100) % max_int32bit }
        = true)]
  · rw [simRun_eq_pure]
    decide
  · rw [simRun_eq_pure]
    decide
